import Mathlib

/-!
Verification of the basketball-stats live game-scoring engine.

This file embeds the data model and operations of the repository
(src/basketball-stats): the PlayerStats record and the per-entity CRUD
model from src/types/index.ts and src/store/storage.ts, and the
scoring-session operations of src/pages/GameDetail.tsx (updateStat,
quickAdd, quickScore, togglePlayerOnCourt, handleTimerTick, and the
useGameTimer countdown hook).  TypeScript numbers that hold whole-number
statistics are modelled as Int (they are signed and the code clamps
negatives explicitly); the record id, assigned lazily with uuidv4(), is
modelled by a Boolean hasId flag (the only observable fact about an id
in the code paths modelled here is whether one has been assigned).
The in-memory Map from player id to PlayerStats is modelled as a
function to Option, and the on-court Set of player ids as a Boolean
predicate; each JS forEach loop over the set writes only the entry it
reads, so its pointwise denotation is exact.
-/

namespace BasketballStats

/-- Game lifecycle status, from src/types/index.ts. -/
inductive GameStatus where
  | pending
  | ongoing
  | finished
deriving DecidableEq, Repr

/-- Team, from src/types/index.ts. -/
structure Team where
  id : String
  name : String
  logo : Option String
  description : Option String
  createdAt : String
deriving DecidableEq, Repr

/-- Player, from src/types/index.ts. -/
structure Player where
  id : String
  name : String
  number : Int
  position : String
  teamId : String
  createdAt : String
deriving DecidableEq, Repr

/-- Per-quarter score breakdown, from src/types/index.ts. -/
structure QuarterScores where
  home : List Int
  away : List Int
deriving DecidableEq, Repr

/-- Game, from src/types/index.ts. -/
structure Game where
  id : String
  homeTeamId : String
  awayTeamId : String
  homeScore : Int
  awayScore : Int
  date : String
  location : Option String
  status : GameStatus
  createdAt : String
  quarterPoints : Option QuarterScores
deriving DecidableEq, Repr

/-- PlayerStats (Box-Score Record), from src/types/index.ts.  The string
id assigned by uuidv4() is modelled by hasId; minutes is playing time in
seconds. -/
structure PlayerStats where
  hasId : Bool
  gameId : String
  playerId : String
  teamId : String
  points : Int
  twoPointsMade : Int
  twoPointsAttempted : Int
  threePointsMade : Int
  threePointsAttempted : Int
  freeThrowsMade : Int
  freeThrowsAttempted : Int
  offensiveRebounds : Int
  defensiveRebounds : Int
  assists : Int
  steals : Int
  blocks : Int
  turnovers : Int
  fouls : Int
  minutes : Int
  plusMinus : Int
deriving DecidableEq, Repr

/-- createEmptyPlayerStats, from src/types/index.ts: all counters zero,
id the empty string (hasId := false). -/
def createEmptyPlayerStats (gameId playerId teamId : String) : PlayerStats :=
  { hasId := false
    gameId := gameId
    playerId := playerId
    teamId := teamId
    points := 0
    twoPointsMade := 0
    twoPointsAttempted := 0
    threePointsMade := 0
    threePointsAttempted := 0
    freeThrowsMade := 0
    freeThrowsAttempted := 0
    offensiveRebounds := 0
    defensiveRebounds := 0
    assists := 0
    steals := 0
    blocks := 0
    turnovers := 0
    fouls := 0
    minutes := 0
    plusMinus := 0 }

/-- AppState, from src/types/index.ts. -/
structure AppState where
  teams : List Team
  players : List Player
  games : List Game
  playerStats : List PlayerStats
deriving DecidableEq, Repr

/-- deleteTeam, from src/store/storage.ts lines 54-62: filters the team
out of teams and its players out of players; games and playerStats are
carried over unchanged by the record spread.  (The saveState call writes
the new state to localStorage and is not part of the state transform.) -/
def deleteTeam (state : AppState) (teamId : String) : AppState :=
  { state with
    teams := state.teams.filter (fun t => t.id ≠ teamId)
    players := state.players.filter (fun p => p.teamId ≠ teamId) }

/-- The PlayerStats fields that the GameDetail UI passes to updateStat /
quickAdd: the thirteen statFields entries plus minutes (see the call
sites at GameDetail.tsx lines 905-1315).  points and plusMinus are
derived fields and are never passed. -/
inductive StatField where
  | twoPointsMade
  | twoPointsAttempted
  | threePointsMade
  | threePointsAttempted
  | freeThrowsMade
  | freeThrowsAttempted
  | offensiveRebounds
  | defensiveRebounds
  | assists
  | steals
  | blocks
  | turnovers
  | fouls
  | minutes
deriving DecidableEq, Repr

/-- Dynamic field read, stat[field]. -/
def getField (st : PlayerStats) : StatField → Int
  | .twoPointsMade => st.twoPointsMade
  | .twoPointsAttempted => st.twoPointsAttempted
  | .threePointsMade => st.threePointsMade
  | .threePointsAttempted => st.threePointsAttempted
  | .freeThrowsMade => st.freeThrowsMade
  | .freeThrowsAttempted => st.freeThrowsAttempted
  | .offensiveRebounds => st.offensiveRebounds
  | .defensiveRebounds => st.defensiveRebounds
  | .assists => st.assists
  | .steals => st.steals
  | .blocks => st.blocks
  | .turnovers => st.turnovers
  | .fouls => st.fouls
  | .minutes => st.minutes

/-- Dynamic field write, the computed-key spread [field]: newValue. -/
def setField (st : PlayerStats) : StatField → Int → PlayerStats
  | .twoPointsMade, v => { st with twoPointsMade := v }
  | .twoPointsAttempted, v => { st with twoPointsAttempted := v }
  | .threePointsMade, v => { st with threePointsMade := v }
  | .threePointsAttempted, v => { st with threePointsAttempted := v }
  | .freeThrowsMade, v => { st with freeThrowsMade := v }
  | .freeThrowsAttempted, v => { st with freeThrowsAttempted := v }
  | .offensiveRebounds, v => { st with offensiveRebounds := v }
  | .defensiveRebounds, v => { st with defensiveRebounds := v }
  | .assists, v => { st with assists := v }
  | .steals, v => { st with steals := v }
  | .blocks, v => { st with blocks := v }
  | .turnovers, v => { st with turnovers := v }
  | .fouls, v => { st with fouls := v }
  | .minutes, v => { st with minutes := v }

/-- Whether the field is one of the three made-shot counters (the fields
for which updateStat recomputes points and a plus/minus delta). -/
def StatField.isMade : StatField → Bool
  | .twoPointsMade => true
  | .threePointsMade => true
  | .freeThrowsMade => true
  | _ => false

/-- Point value used for the plus/minus delta in updateStat:
2 for twoPointsMade, 3 for threePointsMade, 1 for freeThrowsMade. -/
def StatField.pointValue : StatField → Int
  | .twoPointsMade => 2
  | .threePointsMade => 3
  | .freeThrowsMade => 1
  | _ => 0

/-- State of one scoring session in GameDetail: the game and team
identifiers, the roster visible through getPlayersByTeamId, the
playerStats Map and the onCourtPlayers Set. -/
structure ScoringState where
  gameId : String
  homeTeamId : String
  awayTeamId : String
  roster : List Player
  stats : String → Option PlayerStats
  onCourt : String → Bool

/-- getPlayerStat, GameDetail.tsx lines 238-248: the existing record or a
fresh zeroed one (the plusMinus ?? 0 normalisation is the identity here
because the modelled field is total). -/
def getPlayerStat (s : ScoringState) (playerId teamId : String) : PlayerStats :=
  match s.stats playerId with
  | some st => st
  | none => createEmptyPlayerStats s.gameId playerId teamId

/-- The points recomputation applied after a made-shot counter changes:
points = twoPointsMade*2 + threePointsMade*3 + freeThrowsMade. -/
def recomputePoints (st : PlayerStats) : PlayerStats :=
  { st with points := st.twoPointsMade * 2 + st.threePointsMade * 3 + st.freeThrowsMade }

/-- Adjust one on-court record's plusMinus by the scoring delta: same
team as the scoring team gets +delta, the opposing team gets -delta. -/
def adjustPlusMinus (scoringTeamId : String) (delta : Int) (st : PlayerStats) : PlayerStats :=
  if st.teamId = scoringTeamId then
    { st with plusMinus := st.plusMinus + delta }
  else
    { st with plusMinus := st.plusMinus - delta }

/-- updateStat, GameDetail.tsx lines 289-360: clamp the new value at 0,
compute the plus/minus delta for the three made-shot counters, write the
field (assigning an id if absent), recompute points when a made-shot
counter was written, and if the delta is nonzero propagate it to every
on-court record (the edited player excluded from the loop and then
updated once). -/
def updateStat (s : ScoringState) (playerId teamId : String)
    (field : StatField) (value : Int) : ScoringState :=
  let currentStat := getPlayerStat s playerId teamId
  let newValue : Int := max 0 value
  let pointsDelta : Int :=
    if field.isMade then (newValue - getField currentStat field) * field.pointValue else 0
  let written := setField { currentStat with hasId := true } field newValue
  let updatedStat := if field.isMade then recomputePoints written else written
  let newStats : String → Option PlayerStats :=
    if pointsDelta = 0 then
      fun pid => if pid = playerId then some updatedStat else s.stats pid
    else
      fun pid =>
        if pid = playerId then
          some { updatedStat with plusMinus := updatedStat.plusMinus + pointsDelta }
        else if s.onCourt pid then
          match s.stats pid with
          | some st => some (adjustPlusMinus teamId pointsDelta st)
          | none => none
        else s.stats pid
  { s with stats := newStats }

/-- quickAdd, GameDetail.tsx lines 363-372: read the current value and
delegate to updateStat with current + amount. -/
def quickAdd (s : ScoringState) (playerId teamId : String)
    (field : StatField) (amount : Int) : ScoringState :=
  let currentStat := getPlayerStat s playerId teamId
  updateStat s playerId teamId field (getField currentStat field + amount)

/-- The six quick-score action tags of GameDetail.tsx. -/
inductive ScoreType where
  | twoPtMade
  | twoPtMiss
  | threePtMade
  | threePtMiss
  | ftMade
  | ftMiss
deriving DecidableEq, Repr

/-- pointsScored assigned in the quickScore switch: 2, 3, 1 for makes,
0 for misses. -/
def ScoreType.pointsScored : ScoreType → Int
  | .twoPtMade => 2
  | .threePtMade => 3
  | .ftMade => 1
  | _ => 0

/-- Whether the action is a made shot (pointsScored positive). -/
def ScoreType.isMade : ScoreType → Bool
  | .twoPtMade => true
  | .threePtMade => true
  | .ftMade => true
  | _ => false

/-- The counter increments of the quickScore switch. -/
def applyScoreCounters (st : PlayerStats) : ScoreType → PlayerStats
  | .twoPtMade =>
      { st with twoPointsMade := st.twoPointsMade + 1
                twoPointsAttempted := st.twoPointsAttempted + 1 }
  | .twoPtMiss => { st with twoPointsAttempted := st.twoPointsAttempted + 1 }
  | .threePtMade =>
      { st with threePointsMade := st.threePointsMade + 1
                threePointsAttempted := st.threePointsAttempted + 1 }
  | .threePtMiss => { st with threePointsAttempted := st.threePointsAttempted + 1 }
  | .ftMade =>
      { st with freeThrowsMade := st.freeThrowsMade + 1
                freeThrowsAttempted := st.freeThrowsAttempted + 1 }
  | .ftMiss => { st with freeThrowsAttempted := st.freeThrowsAttempted + 1 }

/-- quickScore, GameDetail.tsx lines 374-464: increment the shooter's
counters (assigning an id if absent), always recompute points, and when
pointsScored is positive propagate plus/minus to every on-court record
(the shooter skipped in the loop and then credited once, with no check
of the shooter's own on-court membership). -/
def quickScore (s : ScoringState) (playerId teamId : String) (ty : ScoreType) : ScoringState :=
  let currentStat := getPlayerStat s playerId teamId
  let updatedStat :=
    recomputePoints (applyScoreCounters { currentStat with hasId := true } ty)
  let pointsScored := ty.pointsScored
  let newStats : String → Option PlayerStats :=
    if 0 < pointsScored then
      fun pid =>
        if pid = playerId then
          some { updatedStat with plusMinus := updatedStat.plusMinus + pointsScored }
        else if s.onCourt pid then
          match s.stats pid with
          | some st => some (adjustPlusMinus teamId pointsScored st)
          | none => none
        else s.stats pid
    else
      fun pid => if pid = playerId then some updatedStat else s.stats pid
  { s with stats := newStats }

/-- The teamPlayers list used by togglePlayerOnCourt's capacity check:
the home roster when teamId is the home team, the away roster otherwise
(GameDetail.tsx lines 251-254). -/
def teamPlayersFor (s : ScoringState) (teamId : String) : List Player :=
  if teamId = s.homeTeamId then
    s.roster.filter (fun p => p.teamId = s.homeTeamId)
  else
    s.roster.filter (fun p => p.teamId = s.awayTeamId)

/-- The count the capacity check compares with 5. -/
def onCourtCountFor (s : ScoringState) (teamId : String) : Nat :=
  ((teamPlayersFor s teamId).filter (fun p => s.onCourt p.id)).length

/-- togglePlayerOnCourt, GameDetail.tsx lines 251-280: sub-out removes
unconditionally; sub-in is rejected (alert, early return, no state
change) when the team already has 5 on-court players, and otherwise adds
the player and creates a zeroed record with a fresh id if none exists. -/
def togglePlayerOnCourt (s : ScoringState) (playerId teamId : String) : ScoringState :=
  if s.onCourt playerId then
    { s with onCourt := fun pid => if pid = playerId then false else s.onCourt pid }
  else if 5 ≤ onCourtCountFor s teamId then
    s
  else
    let s' :=
      if (s.stats playerId).isSome then s
      else
        { s with stats := fun pid =>
            if pid = playerId then
              some { createEmptyPlayerStats s.gameId playerId teamId with hasId := true }
            else s.stats pid }
    { s' with onCourt := fun pid => if pid = playerId then true else s.onCourt pid }

/-- handleTimerTick, GameDetail.tsx lines 172-193: for every on-court
player that already has a record, add one second of playing time;
on-court players without a record are skipped. -/
def handleTimerTick (s : ScoringState) : ScoringState :=
  { s with stats := fun pid =>
      if s.onCourt pid then
        match s.stats pid with
        | some st => some { st with minutes := st.minutes + 1 }
        | none => none
      else s.stats pid }

/-- Number of players of the team with id T currently on court, counted
through the roster as the capacity check does. -/
def teamOnCourt (s : ScoringState) (T : String) : Nat :=
  ((s.roster.filter (fun p => p.teamId = T)).filter (fun p => s.onCourt p.id)).length

/-- Game Clock state of the useGameTimer hook, GameDetail.tsx lines
12-96: remaining seconds, running flag, quarter index and per-quarter
minutes. -/
structure GameTimer where
  timeLeft : Int
  isRunning : Bool
  currentQuarter : Int
  quarterMinutes : Int
deriving DecidableEq, Repr

/-- One firing of the interval body (GameDetail.tsx lines 34-45): if
timeLeft ≤ 1 the clock clears its interval, stops and pins timeLeft to
0, otherwise timeLeft decrements; in either case the per-tick callback
fires exactly once (the returned count). -/
def tickFire (t : GameTimer) : GameTimer × Nat :=
  (if t.timeLeft ≤ 1 then { t with timeLeft := 0, isRunning := false }
   else { t with timeLeft := t.timeLeft - 1 }, 1)

/-- One second of wall-clock time: the interval fires only while the
clock is running (once isRunning is false the effect has cleared the
interval, so no body runs and no callback is delivered). -/
def tickEvent (t : GameTimer) : GameTimer × Nat :=
  if t.isRunning then tickFire t else (t, 0)

/-- A scoring session with its clock: the timer's per-tick callback is
handleTimerTick (GameDetail.tsx line 196). -/
structure GameSession where
  timer : GameTimer
  scoring : ScoringState

/-- One second of a live session: while the clock runs, the interval
body updates the clock and the callback accrues court time. -/
def sessionTick (g : GameSession) : GameSession :=
  if g.timer.isRunning then
    { timer := (tickFire g.timer).1, scoring := handleTimerTick g.scoring }
  else g

/-- n seconds of a live session. -/
def sessionTickN : Nat → GameSession → GameSession
  | 0, g => g
  | n + 1, g => sessionTickN n (sessionTick g)

/-- handleStartGame, GameDetail.tsx lines 519-524: set status ongoing. -/
def handleStartGame (g : Game) : Game :=
  { g with status := GameStatus.ongoing }

/-- The UI gate on stat mutation: every stat-editing control carries
disabled when game.status is pending, and the quick-score buttons are
rendered only when the status is not pending (GameDetail.tsx lines
1281-1333), so the handler runs only when the game has left pending. -/
def guardedUpdateStat (g : Game) (s : ScoringState) (playerId teamId : String)
    (field : StatField) (value : Int) : ScoringState :=
  if g.status = GameStatus.pending then s else updateStat s playerId teamId field value

/-- quickAdd behind the same pending gate. -/
def guardedQuickAdd (g : Game) (s : ScoringState) (playerId teamId : String)
    (field : StatField) (amount : Int) : ScoringState :=
  if g.status = GameStatus.pending then s else quickAdd s playerId teamId field amount

/-- quickScore behind the same pending gate. -/
def guardedQuickScore (g : Game) (s : ScoringState) (playerId teamId : String)
    (ty : ScoreType) : ScoringState :=
  if g.status = GameStatus.pending then s else quickScore s playerId teamId ty

/-- The discrete scoring-session events that mutate playerStats or the
on-court set. -/
inductive SEOp where
  | upd (playerId teamId : String) (field : StatField) (value : Int)
  | qadd (playerId teamId : String) (field : StatField) (amount : Int)
  | qscore (playerId teamId : String) (ty : ScoreType)
  | toggle (playerId teamId : String)
  | tick

/-- Apply one event. -/
def applyOp (s : ScoringState) : SEOp → ScoringState
  | .upd playerId teamId field value => updateStat s playerId teamId field value
  | .qadd playerId teamId field amount => quickAdd s playerId teamId field amount
  | .qscore playerId teamId ty => quickScore s playerId teamId ty
  | .toggle playerId teamId => togglePlayerOnCourt s playerId teamId
  | .tick => handleTimerTick s

/-- Apply a sequence of events. -/
def applyOps (s : ScoringState) : List SEOp → ScoringState
  | [] => s
  | op :: ops => applyOps (applyOp s op) ops

/-- The derived-points invariant for one record. -/
def pointsOk (st : PlayerStats) : Prop :=
  st.points = st.twoPointsMade * 2 + st.threePointsMade * 3 + st.freeThrowsMade

/-- Every record in the store satisfies the derived-points invariant. -/
def statePointsOk (s : ScoringState) : Prop :=
  ∀ pid st, s.stats pid = some st → pointsOk st

/-- Non-negativity of every field other than plusMinus for one record. -/
def nonNeg (st : PlayerStats) : Prop :=
  0 ≤ st.points ∧ ∀ f : StatField, 0 ≤ getField st f

/-- Every record in the store satisfies non-negativity. -/
def stateNonNeg (s : ScoringState) : Prop :=
  ∀ pid st, s.stats pid = some st → nonNeg st

/-- The made-shot counter read by a quick-score action's shot type. -/
def ScoreType.madeCounter : ScoreType → PlayerStats → Int
  | .twoPtMade, st => st.twoPointsMade
  | .twoPtMiss, st => st.twoPointsMade
  | .threePtMade, st => st.threePointsMade
  | .threePtMiss, st => st.threePointsMade
  | .ftMade, st => st.freeThrowsMade
  | .ftMiss, st => st.freeThrowsMade

/-- The attempted-shot counter read by a quick-score action's shot type. -/
def ScoreType.attCounter : ScoreType → PlayerStats → Int
  | .twoPtMade, st => st.twoPointsAttempted
  | .twoPtMiss, st => st.twoPointsAttempted
  | .threePtMade, st => st.threePointsAttempted
  | .threePtMiss, st => st.threePointsAttempted
  | .ftMade, st => st.freeThrowsAttempted
  | .ftMiss, st => st.freeThrowsAttempted

/-- The pointsDelta computed by updateStat at GameDetail.tsx lines
299-306: (clamped new value - old made count) * point value for the
three made-shot counters, 0 for every other field. -/
def editDelta (s : ScoringState) (pid tid : String) (field : StatField) (value : Int) : Int :=
  if field.isMade then (max 0 value - getField (getPlayerStat s pid tid) field) * field.pointValue
  else 0

/-- The edited player's record produced by updateStat: the clamped value
written, an id ensured, points recomputed for a made-shot field, and the
plus/minus delta applied (adding a zero delta is the identity, so this
also describes the branch that skips the propagation). -/
def editResult (s : ScoringState) (pid tid : String) (field : StatField) (value : Int) : PlayerStats :=
  let written := setField { getPlayerStat s pid tid with hasId := true } field (max 0 value)
  let updated := if field.isMade then recomputePoints written else written
  { updated with plusMinus := updated.plusMinus + editDelta s pid tid field value }

/-! Concrete sample data used to instantiate the theorems below. -/

/-- A roster entry. -/
def pl (i t : String) : Player :=
  { id := i, name := i, number := 0, position := "", teamId := t, createdAt := "" }

/-- A sample roster: six home players and two away players. -/
def exRoster : List Player :=
  [pl ("h1") ("H"), pl ("h2") ("H"), pl ("h3") ("H"), pl ("h4") ("H"),
   pl ("h5") ("H"), pl ("h6") ("H"), pl ("a1") ("A"), pl ("a2") ("A")]

/-- A zeroed record that has been assigned an id. -/
def exRec (pid tid : String) : PlayerStats :=
  { createEmptyPlayerStats ("g1") pid tid with hasId := true }

/-- A record with some accumulated statistics. -/
def exRecH1 : PlayerStats :=
  { exRec ("h1") ("H") with
    points := 2, twoPointsMade := 1, twoPointsAttempted := 2, minutes := 30, plusMinus := -1 }

/-- A sample mid-game session state: h1, h2 and a1 are on court and have
records; everyone else is off court. -/
def exS : ScoringState :=
  { gameId := "g1", homeTeamId := "H", awayTeamId := "A", roster := exRoster
    stats := fun pid =>
      if pid = "h1" then some exRecH1
      else if pid = "h2" then some (exRec ("h2") ("H"))
      else if pid = "a1" then some (exRec ("a1") ("A"))
      else none
    onCourt := fun pid => pid == "h1" || pid == "h2" || pid == "a1" }

/-- A session state whose home lineup is already full: h1 through h5 are
on court with records. -/
def exS5 : ScoringState :=
  { gameId := "g1", homeTeamId := "H", awayTeamId := "A", roster := exRoster
    stats := fun pid =>
      if pid = "h1" then some (exRec ("h1") ("H"))
      else if pid = "h2" then some (exRec ("h2") ("H"))
      else if pid = "h3" then some (exRec ("h3") ("H"))
      else if pid = "h4" then some (exRec ("h4") ("H"))
      else if pid = "h5" then some (exRec ("h5") ("H"))
      else none
    onCourt := fun pid =>
      pid == "h1" || pid == "h2" || pid == "h3" || pid == "h4" || pid == "h5" }

/-- A fresh session state with no records and nobody on court. -/
def exS0 : ScoringState :=
  { gameId := "g1", homeTeamId := "H", awayTeamId := "A", roster := exRoster
    stats := fun _ => none
    onCourt := fun _ => false }

/-- A sample live session with twelve-minute quarters just started. -/
def exG : GameSession :=
  { timer := { timeLeft := 720, isRunning := true, currentQuarter := 1, quarterMinutes := 12 }
    scoring := exS }

/-- A sample game still in the pending state. -/
def exGamePending : Game :=
  { id := "g1", homeTeamId := "H", awayTeamId := "A", homeScore := 0, awayScore := 0
    date := "2024-01-01", location := none, status := GameStatus.pending
    createdAt := "", quarterPoints := none }

/-! Theorems.  First, small facts about field access and the record
transformers, shared by the claim proofs. -/

theorem getField_setPlusMinus (st : PlayerStats) (v : Int) (f : StatField) :
    getField { st with plusMinus := v } f = getField st f := by cases f <;> rfl

theorem getField_setHasId (st : PlayerStats) (f : StatField) :
    getField { st with hasId := true } f = getField st f := by cases f <;> rfl

theorem getField_recomputePoints (st : PlayerStats) (f : StatField) :
    getField (recomputePoints st) f = getField st f := by cases f <;> rfl

theorem getField_setField_self (st : PlayerStats) (f : StatField) (v : Int) :
    getField (setField st f v) f = v := by cases f <;> rfl

theorem getField_setField (st : PlayerStats) (f f' : StatField) (v : Int) :
    getField (setField st f v) f' = if f' = f then v else getField st f' := by
  cases f <;> cases f' <;> simp [getField, setField]

theorem plusMinus_setField (st : PlayerStats) (f : StatField) (v : Int) :
    (setField st f v).plusMinus = st.plusMinus := by cases f <;> rfl

theorem plusMinus_recomputePoints (st : PlayerStats) :
    (recomputePoints st).plusMinus = st.plusMinus := rfl

theorem points_setField (st : PlayerStats) (f : StatField) (v : Int) :
    (setField st f v).points = st.points := by cases f <;> rfl

theorem adjustPlusMinus_zero (tid : String) (st : PlayerStats) :
    adjustPlusMinus tid 0 st = st := by
  unfold adjustPlusMinus; split <;> simp

/-- The shooter's entry after quickScore: counters incremented, points
recomputed, and plusMinus credited when the shot scored. -/
theorem quickScore_stats_shooter (s : ScoringState) (pid tid : String) (ty : ScoreType) :
    (quickScore s pid tid ty).stats pid =
      some (if 0 < ty.pointsScored then
              { recomputePoints (applyScoreCounters { getPlayerStat s pid tid with hasId := true } ty) with
                plusMinus :=
                  (recomputePoints (applyScoreCounters { getPlayerStat s pid tid with hasId := true } ty)).plusMinus
                    + ty.pointsScored }
            else recomputePoints (applyScoreCounters { getPlayerStat s pid tid with hasId := true } ty)) := by
  unfold quickScore
  by_cases h : (0:Int) < ty.pointsScored <;> simp [h]

/-- An on-court non-shooter's entry after quickScore. -/
theorem quickScore_stats_onCourt (s : ScoringState) (pid tid : String) (ty : ScoreType)
    (q : String) (hq : q ≠ pid) (hqc : s.onCourt q = true)
    (stq : PlayerStats) (hstq : s.stats q = some stq) :
    (quickScore s pid tid ty).stats q =
      some (if 0 < ty.pointsScored then adjustPlusMinus tid ty.pointsScored stq else stq) := by
  unfold quickScore
  by_cases h : (0:Int) < ty.pointsScored <;> simp [h, hq, hqc, hstq]

/-- An off-court non-shooter's entry is untouched by quickScore. -/
theorem quickScore_stats_offCourt (s : ScoringState) (pid tid : String) (ty : ScoreType)
    (q : String) (hq : q ≠ pid) (hqc : s.onCourt q = false) :
    (quickScore s pid tid ty).stats q = s.stats q := by
  unfold quickScore
  by_cases h : (0:Int) < ty.pointsScored <;> simp [h, hq, hqc]

/-- A non-shooter with no record still has none after quickScore. -/
theorem quickScore_stats_none (s : ScoringState) (pid tid : String) (ty : ScoreType)
    (q : String) (hq : q ≠ pid) (hsq : s.stats q = none) :
    (quickScore s pid tid ty).stats q = none := by
  unfold quickScore
  by_cases h : (0:Int) < ty.pointsScored <;> by_cases hc : s.onCourt q = true <;>
    simp [h, hc, hq, hsq]

/-- The edited player's entry after updateStat is the editResult record
(in both the propagated and the zero-delta branch). -/
theorem updateStat_stats_self (s : ScoringState) (pid tid : String)
    (field : StatField) (value : Int) :
    (updateStat s pid tid field value).stats pid = some (editResult s pid tid field value) := by
  unfold updateStat editResult editDelta
  by_cases hd :
      (if field.isMade then
        (max 0 value - getField (getPlayerStat s pid tid) field) * field.pointValue else 0) = (0:Int)
  · simp [hd]
  · simp [hd]

/-- The edited field of the editResult record holds the clamped value. -/
theorem editResult_getField (s : ScoringState) (pid tid : String)
    (field : StatField) (value : Int) :
    getField (editResult s pid tid field value) field = max 0 value := by
  unfold editResult
  by_cases hfm : field.isMade <;>
    simp [hfm, getField_setPlusMinus, getField_recomputePoints, getField_setField_self]

/-- The editResult record's plusMinus is the old one plus the delta. -/
theorem editResult_plusMinus (s : ScoringState) (pid tid : String)
    (field : StatField) (value : Int) :
    (editResult s pid tid field value).plusMinus =
      (getPlayerStat s pid tid).plusMinus + editDelta s pid tid field value := by
  unfold editResult
  by_cases hfm : field.isMade <;>
    simp [hfm, plusMinus_recomputePoints, plusMinus_setField]

/-- An on-court non-edited player's entry after updateStat: plusMinus
moved by the delta (a no-op when the delta is zero). -/
theorem updateStat_stats_onCourt (s : ScoringState) (pid tid : String)
    (field : StatField) (value : Int)
    (q : String) (hq : q ≠ pid) (hqc : s.onCourt q = true)
    (stq : PlayerStats) (hstq : s.stats q = some stq) :
    (updateStat s pid tid field value).stats q =
      some (adjustPlusMinus tid (editDelta s pid tid field value) stq) := by
  unfold updateStat editDelta
  by_cases hd :
      (if field.isMade then
        (max 0 value - getField (getPlayerStat s pid tid) field) * field.pointValue else 0) = (0:Int)
  · simp [hd, hq, hqc, hstq, adjustPlusMinus_zero]
  · simp [hd, hq, hqc, hstq]

/-- An off-court non-edited player's entry is untouched by updateStat. -/
theorem updateStat_stats_offCourt (s : ScoringState) (pid tid : String)
    (field : StatField) (value : Int)
    (q : String) (hq : q ≠ pid) (hqc : s.onCourt q = false) :
    (updateStat s pid tid field value).stats q = s.stats q := by
  unfold updateStat
  by_cases hd :
      (if field.isMade then
        (max 0 value - getField (getPlayerStat s pid tid) field) * field.pointValue else 0) = (0:Int) <;>
    simp [hd, hq, hqc]

/-- C10: deleteTeam removes exactly the team with the given id and every
player whose teamId matches it, and leaves the games and playerStats
collections unchanged; in particular the PlayerStats records of the
deleted team's players remain in the state. -/
theorem claim_C10_deleteTeam (st : AppState) (tid : String) :
    (∀ t : Team, t ∈ (deleteTeam st tid).teams ↔ t ∈ st.teams ∧ t.id ≠ tid) ∧
    (∀ p : Player, p ∈ (deleteTeam st tid).players ↔ p ∈ st.players ∧ p.teamId ≠ tid) ∧
    (deleteTeam st tid).games = st.games ∧
    (deleteTeam st tid).playerStats = st.playerStats := by
  refine ⟨fun t => ?_, fun p => ?_, rfl, rfl⟩
  · simp [deleteTeam, List.mem_filter]
  · simp [deleteTeam, List.mem_filter]

/-- C9: quickScore credits the shooter's own plusMinus with the full
point value of a made shot even when the shooter is not in the on-court
set; the shooter's membership is never checked before that credit. -/
theorem claim_C9_shooter_credit_off_court (s : ScoringState) (pid tid : String)
    (ty : ScoreType) (hm : ty.isMade = true) (hoff : s.onCourt pid = false) :
    ∃ st', (quickScore s pid tid ty).stats pid = some st' ∧
      st'.plusMinus = (getPlayerStat s pid tid).plusMinus + ty.pointsScored := by
  cases ty <;> simp_all [quickScore, ScoreType.isMade, ScoreType.pointsScored,
    recomputePoints, applyScoreCounters]

/-- C9 witness: in the sample state, h6 is off court and has no record;
a made free throw still sets the fresh record's plusMinus to 0 + 1. -/
theorem claim_C9_witness :
    Option.map PlayerStats.plusMinus ((quickScore exS ("h6") ("H") ScoreType.ftMade).stats ("h6"))
      = some ((getPlayerStat exS ("h6") ("H")).plusMinus + 1) := by
  obtain ⟨st', he, hpm⟩ :=
    claim_C9_shooter_credit_off_court exS ("h6") ("H") ScoreType.ftMade rfl (by decide)
  simp [he, hpm, ScoreType.pointsScored]

/-- C6: a tick of the running clock decrements timeLeft by exactly 1 and
invokes the per-tick callback exactly once; the tick that brings
timeLeft to 0 stops the clock without advancing the quarter, and after
that no further tick (and no further callback) is delivered. -/
theorem claim_C6_tick_semantics (t : GameTimer) (hrun : t.isRunning = true)
    (h1 : 1 ≤ t.timeLeft) :
    (tickEvent t).1.timeLeft = t.timeLeft - 1 ∧
    (tickEvent t).2 = 1 ∧
    (t.timeLeft = 1 →
      (tickEvent t).1.isRunning = false ∧
      (tickEvent t).1.currentQuarter = t.currentQuarter ∧
      tickEvent (tickEvent t).1 = ((tickEvent t).1, 0)) := by
  by_cases h : t.timeLeft ≤ 1
  · have he : t.timeLeft = 1 := le_antisymm h h1
    refine ⟨?_, ?_, fun _ => ⟨?_, ?_, ?_⟩⟩ <;>
      simp [tickEvent, tickFire, hrun, he]
  · refine ⟨?_, ?_, fun he => absurd he (by omega)⟩ <;>
      simp [tickEvent, tickFire, hrun, h]

/-- C6 witness: a running clock at one remaining second reaches 0, fires
the callback once, stops, and delivers nothing afterwards. -/
theorem claim_C6_witness :
    (tickEvent { timeLeft := 1, isRunning := true, currentQuarter := 4, quarterMinutes := 12 }).1.timeLeft = 0 ∧
    (tickEvent { timeLeft := 1, isRunning := true, currentQuarter := 4, quarterMinutes := 12 }).2 = 1 ∧
    (tickEvent { timeLeft := 1, isRunning := true, currentQuarter := 4, quarterMinutes := 12 }).1.isRunning = false ∧
    tickEvent (tickEvent { timeLeft := 1, isRunning := true, currentQuarter := 4, quarterMinutes := 12 }).1
      = ((tickEvent { timeLeft := 1, isRunning := true, currentQuarter := 4, quarterMinutes := 12 }).1, 0) := by
  have h := claim_C6_tick_semantics
    { timeLeft := 1, isRunning := true, currentQuarter := 4, quarterMinutes := 12 } rfl (by decide)
  have h3 := h.2.2 rfl
  exact ⟨by rw [h.1]; decide, h.2.1, h3.1, h3.2.2⟩

/-- C8: while the game status is pending every stat mutation (field
edit, quick increment, quick score) is gated off and leaves the session
state unchanged; after handleStartGame the status is ongoing and the
identical operations run the unguarded handlers (and a quick score
produces a record for the shooter). -/
theorem claim_C8_pending_gate (g : Game) (s : ScoringState) (pid tid : String)
    (field : StatField) (value amount : Int) (ty : ScoreType)
    (hp : g.status = GameStatus.pending) :
    guardedUpdateStat g s pid tid field value = s ∧
    guardedQuickAdd g s pid tid field amount = s ∧
    guardedQuickScore g s pid tid ty = s ∧
    (handleStartGame g).status = GameStatus.ongoing ∧
    guardedUpdateStat (handleStartGame g) s pid tid field value = updateStat s pid tid field value ∧
    guardedQuickAdd (handleStartGame g) s pid tid field amount = quickAdd s pid tid field amount ∧
    guardedQuickScore (handleStartGame g) s pid tid ty = quickScore s pid tid ty ∧
    (∃ st', (guardedQuickScore (handleStartGame g) s pid tid ty).stats pid = some st') := by
  refine ⟨?_, ?_, ?_, rfl, ?_, ?_, ?_, ?_⟩ <;>
    simp [guardedUpdateStat, guardedQuickAdd, guardedQuickScore, handleStartGame, hp]
  unfold quickScore
  by_cases hpos : (0:Int) < ty.pointsScored <;> simp [hpos]

/-- C8 witness: with the sample pending game, an edit is inert; after
starting the game the guarded quick score equals the real one. -/
theorem claim_C8_witness :
    guardedUpdateStat exGamePending exS0 ("h1") ("H") StatField.assists 3 = exS0 ∧
    guardedQuickScore (handleStartGame exGamePending) exS0 ("h1") ("H") ScoreType.twoPtMade
      = quickScore exS0 ("h1") ("H") ScoreType.twoPtMade := by
  have h := claim_C8_pending_gate exGamePending exS0 ("h1") ("H") StatField.assists 3 3
    ScoreType.twoPtMade rfl
  exact ⟨h.1, h.2.2.2.2.2.2.1⟩

/-- C1: quickScore on a made shot by an on-court shooter increments the
shooter's made and attempted counters for the shot type by one, raises
the shooter's points and plusMinus by the shot's point value exactly
once, adds the value to the plusMinus of every other on-court player of
the scoring team, subtracts it from every on-court opponent, and leaves
every off-court player's record unchanged. -/
theorem claim_C1_quickScore_made (s : ScoringState) (pid tid : String) (ty : ScoreType)
    (hm : ty.isMade = true) (hon : s.onCourt pid = true)
    (hpts : pointsOk (getPlayerStat s pid tid)) :
    (∃ st', (quickScore s pid tid ty).stats pid = some st' ∧
      ty.madeCounter st' = ty.madeCounter (getPlayerStat s pid tid) + 1 ∧
      ty.attCounter st' = ty.attCounter (getPlayerStat s pid tid) + 1 ∧
      st'.points = (getPlayerStat s pid tid).points + ty.pointsScored ∧
      st'.plusMinus = (getPlayerStat s pid tid).plusMinus + ty.pointsScored) ∧
    (∀ q, q ≠ pid → s.onCourt q = true → ∀ stq, s.stats q = some stq →
      (quickScore s pid tid ty).stats q =
        some (if stq.teamId = tid then { stq with plusMinus := stq.plusMinus + ty.pointsScored }
              else { stq with plusMinus := stq.plusMinus - ty.pointsScored })) ∧
    (∀ q, q ≠ pid → s.onCourt q = false →
      (quickScore s pid tid ty).stats q = s.stats q) := by
  have hpts' : (getPlayerStat s pid tid).points =
      (getPlayerStat s pid tid).twoPointsMade * 2 + (getPlayerStat s pid tid).threePointsMade * 3 +
        (getPlayerStat s pid tid).freeThrowsMade := hpts
  cases ty <;> simp [ScoreType.isMade] at hm
  case twoPtMade =>
    refine ⟨⟨_, quickScore_stats_shooter s pid tid ScoreType.twoPtMade, ?_, ?_, ?_, ?_⟩,
      fun q hq hqc stq hstq => ?_, fun q hq hqc => ?_⟩
    · simp [ScoreType.pointsScored, ScoreType.madeCounter, recomputePoints, applyScoreCounters]
    · simp [ScoreType.pointsScored, ScoreType.attCounter, recomputePoints, applyScoreCounters]
    · simp [ScoreType.pointsScored, recomputePoints, applyScoreCounters]; omega
    · simp [ScoreType.pointsScored, recomputePoints, applyScoreCounters]
    · rw [quickScore_stats_onCourt s pid tid ScoreType.twoPtMade q hq hqc stq hstq]
      simp [ScoreType.pointsScored, adjustPlusMinus]
    · exact quickScore_stats_offCourt s pid tid ScoreType.twoPtMade q hq hqc
  case threePtMade =>
    refine ⟨⟨_, quickScore_stats_shooter s pid tid ScoreType.threePtMade, ?_, ?_, ?_, ?_⟩,
      fun q hq hqc stq hstq => ?_, fun q hq hqc => ?_⟩
    · simp [ScoreType.pointsScored, ScoreType.madeCounter, recomputePoints, applyScoreCounters]
    · simp [ScoreType.pointsScored, ScoreType.attCounter, recomputePoints, applyScoreCounters]
    · simp [ScoreType.pointsScored, recomputePoints, applyScoreCounters]; omega
    · simp [ScoreType.pointsScored, recomputePoints, applyScoreCounters]
    · rw [quickScore_stats_onCourt s pid tid ScoreType.threePtMade q hq hqc stq hstq]
      simp [ScoreType.pointsScored, adjustPlusMinus]
    · exact quickScore_stats_offCourt s pid tid ScoreType.threePtMade q hq hqc
  case ftMade =>
    refine ⟨⟨_, quickScore_stats_shooter s pid tid ScoreType.ftMade, ?_, ?_, ?_, ?_⟩,
      fun q hq hqc stq hstq => ?_, fun q hq hqc => ?_⟩
    · simp [ScoreType.pointsScored, ScoreType.madeCounter, recomputePoints, applyScoreCounters]
    · simp [ScoreType.pointsScored, ScoreType.attCounter, recomputePoints, applyScoreCounters]
    · simp [ScoreType.pointsScored, recomputePoints, applyScoreCounters]; omega
    · simp [ScoreType.pointsScored, recomputePoints, applyScoreCounters]
    · rw [quickScore_stats_onCourt s pid tid ScoreType.ftMade q hq hqc stq hstq]
      simp [ScoreType.pointsScored, adjustPlusMinus]
    · exact quickScore_stats_offCourt s pid tid ScoreType.ftMade q hq hqc

/-- C1 witness: h1 (on court, team H) makes a two in the sample state;
teammate h2 gains +2, opponent a1 gains -2, off-court h3 is untouched. -/
theorem claim_C1_witness :
    (quickScore exS ("h1") ("H") ScoreType.twoPtMade).stats ("h2")
        = some { exRec ("h2") ("H") with plusMinus := 2 } ∧
    (quickScore exS ("h1") ("H") ScoreType.twoPtMade).stats ("a1")
        = some { exRec ("a1") ("A") with plusMinus := -2 } ∧
    (quickScore exS ("h1") ("H") ScoreType.twoPtMade).stats ("h3") = exS.stats ("h3") := by
  have h := claim_C1_quickScore_made exS ("h1") ("H") ScoreType.twoPtMade rfl (by decide)
    (by unfold pointsOk; decide)
  refine ⟨?_, ?_, h.2.2 ("h3") (by decide) (by decide)⟩
  · have h2 := h.2.1 ("h2") (by decide) (by decide) (exRec ("h2") ("H")) (by decide)
    rw [h2]; decide
  · have ha := h.2.1 ("a1") (by decide) (by decide) (exRec ("a1") ("A")) (by decide)
    rw [ha]; decide

/-- C4: a direct overwrite of a made-shot counter via updateStat from
old value m to clamped value max 0 v produces the signed delta
(max 0 v - m) * pointValue, applies it once to the edited player, adds
it to every other on-court player of the same team, subtracts it from
every on-court opponent, and leaves off-court players unchanged; a
decrement (negative delta) therefore reverses the earlier propagation
symmetrically. -/
theorem claim_C4_editField_propagation (s : ScoringState) (pid tid : String)
    (field : StatField) (hf : field.isMade = true) (value : Int) :
    editDelta s pid tid field value =
      (max 0 value - getField (getPlayerStat s pid tid) field) * field.pointValue ∧
    (∃ st', (updateStat s pid tid field value).stats pid = some st' ∧
      getField st' field = max 0 value ∧
      st'.plusMinus = (getPlayerStat s pid tid).plusMinus + editDelta s pid tid field value) ∧
    (∀ q, q ≠ pid → s.onCourt q = true → ∀ stq, s.stats q = some stq →
      (updateStat s pid tid field value).stats q =
        some (if stq.teamId = tid then
                { stq with plusMinus := stq.plusMinus + editDelta s pid tid field value }
              else
                { stq with plusMinus := stq.plusMinus - editDelta s pid tid field value })) ∧
    (∀ q, q ≠ pid → s.onCourt q = false →
      (updateStat s pid tid field value).stats q = s.stats q) := by
  refine ⟨by simp [editDelta, hf],
    ⟨_, updateStat_stats_self s pid tid field value,
      editResult_getField s pid tid field value, editResult_plusMinus s pid tid field value⟩,
    fun q hq hqc stq hstq => ?_, fun q hq hqc => ?_⟩
  · rw [updateStat_stats_onCourt s pid tid field value q hq hqc stq hstq]
    simp [adjustPlusMinus]
  · exact updateStat_stats_offCourt s pid tid field value q hq hqc

/-- C4 witness: h1's twoPointsMade is overwritten from 1 to -3 (clamped
to 0, delta -2): on-court opponent a1 gains +2 and off-court h3 is
untouched. -/
theorem claim_C4_witness :
    (updateStat exS ("h1") ("H") StatField.twoPointsMade (-3)).stats ("a1")
        = some { exRec ("a1") ("A") with plusMinus := 2 } ∧
    (updateStat exS ("h1") ("H") StatField.twoPointsMade (-3)).stats ("h3") = exS.stats ("h3") := by
  have h := claim_C4_editField_propagation exS ("h1") ("H") StatField.twoPointsMade rfl (-3)
  refine ⟨?_, h.2.2.2 ("h3") (by decide) (by decide)⟩
  have ha := h.2.2.1 ("a1") (by decide) (by decide) (exRec ("a1") ("A")) (by decide)
  rw [ha]; decide

/-- While the clock keeps running, n session ticks drain n seconds,
keep the on-court set fixed, add n seconds of court time to every
on-court player with a record, and leave off-court players untouched. -/
theorem sessionTickN_run (n : Nat) : ∀ g : GameSession, g.timer.isRunning = true →
    (n : Int) < g.timer.timeLeft →
    (sessionTickN n g).timer.isRunning = true ∧
    (sessionTickN n g).timer.timeLeft = g.timer.timeLeft - n ∧
    (sessionTickN n g).scoring.onCourt = g.scoring.onCourt ∧
    (∀ pid st, g.scoring.onCourt pid = true → g.scoring.stats pid = some st →
        (sessionTickN n g).scoring.stats pid = some { st with minutes := st.minutes + n }) ∧
    (∀ pid, g.scoring.onCourt pid = false →
        (sessionTickN n g).scoring.stats pid = g.scoring.stats pid) := by
  induction n with
  | zero =>
    intro g hrun hlt
    refine ⟨hrun, by simp [sessionTickN], rfl, fun pid st hc hs => ?_, fun pid hc => rfl⟩
    simp [sessionTickN, hs]
  | succ n ih =>
    intro g hrun hlt
    have hgt : ¬ g.timer.timeLeft ≤ 1 := by push_cast at hlt; omega
    have hstep : sessionTick g =
        { timer := (tickFire g.timer).1, scoring := handleTimerTick g.scoring } := by
      simp [sessionTick, hrun]
    have hrun' : (sessionTick g).timer.isRunning = true := by
      rw [hstep]; simp [tickFire, hgt, hrun]
    have htl' : (sessionTick g).timer.timeLeft = g.timer.timeLeft - 1 := by
      rw [hstep]; simp [tickFire, hgt]
    have hoc : (sessionTick g).scoring.onCourt = g.scoring.onCourt := by
      rw [hstep]; rfl
    have hN : sessionTickN (n + 1) g = sessionTickN n (sessionTick g) := rfl
    obtain ⟨i1, i2, i3, i4, i5⟩ := ih (sessionTick g) hrun'
      (by rw [htl']; push_cast at hlt ⊢; omega)
    refine ⟨by rw [hN]; exact i1, ?_, by rw [hN, i3, hoc], fun pid st hc hs => ?_, fun pid hc => ?_⟩
    · rw [hN, i2, htl']; push_cast; ring
    · have hs' : (sessionTick g).scoring.stats pid = some { st with minutes := st.minutes + 1 } := by
        rw [hstep]; simp [handleTimerTick, hc, hs]
      have hc' : (sessionTick g).scoring.onCourt pid = true := by rw [hoc]; exact hc
      have h4 := i4 pid _ hc' hs'
      rw [hN, h4]
      simp only [Option.some.injEq]
      congr 1
      push_cast
      ring
    · have hc' : (sessionTick g).scoring.onCourt pid = false := by rw [hoc]; exact hc
      have h5 := i5 pid hc'
      rw [hN, h5, hstep]
      simp [handleTimerTick, hc]

/-- C7: each tick of the running clock adds one second of court time to
every on-court player's record; starting at 720 seconds, 15 ticks leave
timeLeft at 705 and have added exactly 15 seconds to every on-court
player, while off-court players' records are unchanged. -/
theorem claim_C7_court_time (g : GameSession) (hrun : g.timer.isRunning = true)
    (h720 : g.timer.timeLeft = 720) :
    (∀ pid st, g.scoring.onCourt pid = true → g.scoring.stats pid = some st →
        (sessionTick g).scoring.stats pid = some { st with minutes := st.minutes + 1 }) ∧
    (sessionTickN 15 g).timer.timeLeft = 705 ∧
    (∀ pid st, g.scoring.onCourt pid = true → g.scoring.stats pid = some st →
        (sessionTickN 15 g).scoring.stats pid = some { st with minutes := st.minutes + 15 }) ∧
    (∀ pid, g.scoring.onCourt pid = false →
        (sessionTickN 15 g).scoring.stats pid = g.scoring.stats pid) := by
  obtain ⟨i1, i2, i3, i4, i5⟩ := sessionTickN_run 15 g hrun (by rw [h720]; norm_num)
  refine ⟨fun pid st hc hs => ?_, by rw [i2, h720]; norm_num,
    fun pid st hc hs => by simpa using i4 pid st hc hs, i5⟩
  simp [sessionTick, hrun, handleTimerTick, hc, hs]

/-- C7 witness: in the sample session (720 seconds on the clock, h1 on
court with 30 seconds played), 15 ticks leave 705 seconds and give h1
exactly 45 seconds played. -/
theorem claim_C7_witness :
    (sessionTickN 15 exG).timer.timeLeft = 705 ∧
    (sessionTickN 15 exG).scoring.stats ("h1")
      = some { exRecH1 with minutes := exRecH1.minutes + 15 } := by
  have h := claim_C7_court_time exG rfl rfl
  exact ⟨h.2.1, h.2.2.1 ("h1") exRecH1 (by decide) (by decide)⟩

/-- Filter length is monotone along a pointwise implication over the
list's members. -/
theorem length_filter_le_of_imp {α : Type} (l : List α) (p q : α → Bool)
    (h : ∀ a ∈ l, p a = true → q a = true) :
    (l.filter p).length ≤ (l.filter q).length := by
  induction l with
  | nil => simp
  | cons a t ih =>
    have ih' := ih (fun x hx => h x (List.mem_cons_of_mem a hx))
    by_cases hp : p a = true
    · have hq := h a (List.mem_cons_self a t) hp
      simp [List.filter_cons, hp, hq]
      omega
    · by_cases hq : q a = true <;> simp [List.filter_cons, hp, hq] <;> try omega

/-- A filter whose predicate is covered by a disjunction is bounded by
the two filters' lengths. -/
theorem length_filter_le_add {α : Type} (l : List α) (p q r : α → Bool)
    (h : ∀ a ∈ l, p a = true → q a = true ∨ r a = true) :
    (l.filter p).length ≤ (l.filter q).length + (l.filter r).length := by
  induction l with
  | nil => simp
  | cons a t ih =>
    have ih' := ih (fun x hx => h x (List.mem_cons_of_mem a hx))
    by_cases hp : p a = true
    · have hqr := h a (List.mem_cons_self a t) hp
      by_cases hq : q a = true
      · by_cases hr : r a = true <;> simp [List.filter_cons, hp, hq, hr] <;> try omega
      · have hr : r a = true := by
          rcases hqr with h1 | h1
          · exact absurd h1 hq
          · exact h1
        simp [List.filter_cons, hp, hq, hr]
        omega
    · by_cases hq : q a = true <;> by_cases hr : r a = true <;>
        simp [List.filter_cons, hp, hq, hr] <;> try omega

/-- In a roster whose ids are distinct, at most one entry has a given
id. -/
theorem length_filter_id_le_one (l : List Player) (pid : String)
    (h : (l.map Player.id).Nodup) :
    (l.filter (fun p => p.id = pid)).length ≤ 1 := by
  induction l with
  | nil => simp
  | cons a t ih =>
    rw [List.map_cons, List.nodup_cons] at h
    by_cases ha : a.id = pid
    · have hz : t.filter (fun p => p.id = pid) = [] := by
        rw [List.filter_eq_nil_iff]
        intro p hp
        simp only [decide_eq_true_eq]
        intro he
        exact h.1 (by rw [ha, ← he]; exact List.mem_map_of_mem Player.id hp)
      simp [List.filter_cons, ha, hz]
    · simp only [List.filter_cons, decide_eq_true_eq, if_neg ha]
      exact ih h.2

/-- C3: a team never has more than five players on court.  With a roster
of distinct ids whose entries for the toggled player carry the toggled
team (as every call site guarantees, passing player.id with
player.teamId), togglePlayerOnCourt preserves the bound for every team;
and a sub-in attempted while the team already has five on court is
rejected, changing nothing: the whole state, the rejected player's
record, and the on-court set are untouched. -/
theorem claim_C3_lineup_cap (s : ScoringState) (pid tid T : String)
    (hnd : (s.roster.map Player.id).Nodup)
    (hteam : ∀ p ∈ s.roster, p.id = pid → p.teamId = tid)
    (htid : tid = s.homeTeamId ∨ tid = s.awayTeamId)
    (hT : teamOnCourt s T ≤ 5) :
    teamOnCourt (togglePlayerOnCourt s pid tid) T ≤ 5 ∧
    (s.onCourt pid = false → 5 ≤ onCourtCountFor s tid →
      togglePlayerOnCourt s pid tid = s ∧
      (togglePlayerOnCourt s pid tid).stats pid = s.stats pid ∧
      (togglePlayerOnCourt s pid tid).onCourt = s.onCourt) := by
  constructor
  · by_cases hoc : s.onCourt pid = true
    · -- sub-out: the on-court predicate only shrinks
      have hro : (togglePlayerOnCourt s pid tid).roster = s.roster := by
        unfold togglePlayerOnCourt; simp [hoc]
      have hocf : (togglePlayerOnCourt s pid tid).onCourt =
          fun q => if q = pid then false else s.onCourt q := by
        unfold togglePlayerOnCourt; simp [hoc]
      unfold teamOnCourt
      simp only [hro, hocf]
      refine le_trans (length_filter_le_of_imp _ _ _ ?_) hT
      intro p _ hnew
      simp only [] at hnew ⊢
      by_cases hpe : p.id = pid
      · rw [if_pos hpe] at hnew; exact absurd hnew (by simp)
      · rwa [if_neg hpe] at hnew
    · have hoc' : s.onCourt pid = false := by simpa using hoc
      by_cases hfull : 5 ≤ onCourtCountFor s tid
      · -- rejected sub-in: state unchanged
        have heq : togglePlayerOnCourt s pid tid = s := by
          unfold togglePlayerOnCourt; simp [hoc', hfull]
        rw [heq]; exact hT
      · -- accepted sub-in
        have hro : (togglePlayerOnCourt s pid tid).roster = s.roster := by
          unfold togglePlayerOnCourt
          simp only [hoc', Bool.false_eq_true, if_false, if_neg hfull]
          by_cases hst : (s.stats pid).isSome <;> simp [hst]
        have hocf : (togglePlayerOnCourt s pid tid).onCourt =
            fun q => if q = pid then true else s.onCourt q := by
          unfold togglePlayerOnCourt
          simp only [hoc', Bool.false_eq_true, if_false, if_neg hfull]
        unfold teamOnCourt
        simp only [hro, hocf]
        have hcnt : onCourtCountFor s tid = teamOnCourt s tid := by
          unfold onCourtCountFor teamPlayersFor teamOnCourt
          by_cases hh : tid = s.homeTeamId
          · rw [if_pos hh, ← hh]
          · rw [if_neg hh]
            rcases htid with h1 | h1
            · exact absurd h1 hh
            · rw [← h1]
        by_cases hTt : T = tid
        · subst hTt
          have hb := length_filter_le_add (s.roster.filter fun p => p.teamId = T)
            (fun p => if p.id = pid then true else s.onCourt p.id)
            (fun p => s.onCourt p.id) (fun p => p.id = pid) ?_
          · have hone : ((s.roster.filter fun p => p.teamId = T).filter
                (fun p => p.id = pid)).length ≤ 1 := by
              refine length_filter_id_le_one _ pid (hnd.sublist ?_)
              exact List.Sublist.map Player.id (List.filter_sublist s.roster)
            have hfull' : teamOnCourt s T ≤ 4 := by
              rw [← hcnt]; omega
            unfold teamOnCourt at hfull' hb
            omega
          · intro p _ hnew
            simp only [decide_eq_true_eq] at hnew ⊢
            by_cases hpe : p.id = pid
            · exact Or.inr hpe
            · left; rwa [if_neg hpe] at hnew
        · -- another team: the new player contributes nothing to it
          refine le_trans (length_filter_le_of_imp _ _ _ ?_) hT
          intro p hp hnew
          simp only [decide_eq_true_eq] at hnew ⊢
          by_cases hpe : p.id = pid
          · have hpt : p.teamId = tid := hteam p (List.mem_of_mem_filter hp) hpe
            have hpT : p.teamId = T := by
              have hm := (List.mem_filter.mp hp).2
              simpa using hm
            exact absurd (hpT.symm.trans hpt) hTt
          · rwa [if_neg hpe] at hnew
  · intro h1 h2
    have heq : togglePlayerOnCourt s pid tid = s := by
      unfold togglePlayerOnCourt; simp [h1, h2]
    exact ⟨heq, by rw [heq], by rw [heq]⟩

/-- C3 witness: with the home lineup full (h1 through h5 on court),
subbing in h6 is rejected and the state is unchanged. -/
theorem claim_C3_witness :
    togglePlayerOnCourt exS5 ("h6") ("H") = exS5 := by
  have h := claim_C3_lineup_cap exS5 ("h6") ("H") ("H") (by decide) (by decide)
    (Or.inl rfl) (by decide)
  exact (h.2 (by decide) (by decide)).1

/-! Derived-points and non-negativity preservation, operation by
operation. -/

theorem points_recomputePoints (st : PlayerStats) :
    (recomputePoints st).points =
      st.twoPointsMade * 2 + st.threePointsMade * 3 + st.freeThrowsMade := rfl

theorem pointsOk_recomputePoints (st : PlayerStats) : pointsOk (recomputePoints st) := rfl

theorem pointsOk_getPlayerStat (s : ScoringState) (pid tid : String)
    (hs : statePointsOk s) : pointsOk (getPlayerStat s pid tid) := by
  unfold getPlayerStat
  cases hst : s.stats pid with
  | none => exact rfl
  | some st => exact hs pid st hst

theorem pointsOk_adjustPlusMinus (tid : String) (d : Int) (st : PlayerStats)
    (h : pointsOk st) : pointsOk (adjustPlusMinus tid d st) := by
  unfold adjustPlusMinus; split <;> exact h

theorem pointsOk_editResult_made (s : ScoringState) (pid tid : String)
    (f : StatField) (v : Int) (hfm : f.isMade = true) :
    pointsOk (editResult s pid tid f v) := by
  simp only [editResult, hfm, if_true]
  exact rfl

theorem points_editResult_nonmade (s : ScoringState) (pid tid : String)
    (f : StatField) (v : Int) (hfm : f.isMade = false) :
    (editResult s pid tid f v).points = (getPlayerStat s pid tid).points := by
  simp only [editResult, hfm, Bool.false_eq_true, if_false]
  exact points_setField _ _ _

theorem getField_editResult (s : ScoringState) (pid tid : String)
    (f : StatField) (v : Int) (f' : StatField) :
    getField (editResult s pid tid f v) f' =
      if f' = f then max 0 v else getField (getPlayerStat s pid tid) f' := by
  unfold editResult
  by_cases hfm : f.isMade = true <;>
    simp [hfm, getField_setPlusMinus, getField_recomputePoints, getField_setField,
      getField_setHasId]

theorem pointsOk_editResult (s : ScoringState) (pid tid : String)
    (f : StatField) (v : Int) (h : pointsOk (getPlayerStat s pid tid)) :
    pointsOk (editResult s pid tid f v) := by
  by_cases hfm : f.isMade = true
  · exact pointsOk_editResult_made s pid tid f v hfm
  · have hfm' : f.isMade = false := by simpa using hfm
    have hcnt : ∀ f', f'.isMade = true →
        getField (editResult s pid tid f v) f' = getField (getPlayerStat s pid tid) f' := by
      intro f' hf'
      rw [getField_editResult, if_neg (by intro hh; rw [hh] at hf'; simp [hfm'] at hf')]
    have h2 := hcnt StatField.twoPointsMade rfl
    have h3 := hcnt StatField.threePointsMade rfl
    have h4 := hcnt StatField.freeThrowsMade rfl
    simp only [getField] at h2 h3 h4
    unfold pointsOk at h ⊢
    rw [points_editResult_nonmade s pid tid f v hfm', h2, h3, h4]
    exact h

/-- A non-edited player with no record still has none after updateStat. -/
theorem updateStat_stats_none (s : ScoringState) (pid tid : String)
    (f : StatField) (v : Int) (q : String) (hq : q ≠ pid) (hsq : s.stats q = none) :
    (updateStat s pid tid f v).stats q = none := by
  unfold updateStat
  by_cases hd :
      (if f.isMade then
        (max 0 v - getField (getPlayerStat s pid tid) f) * f.pointValue else 0) = (0:Int) <;>
    by_cases hc : s.onCourt q = true <;> simp [hd, hc, hq, hsq]

theorem statePointsOk_updateStat (s : ScoringState) (pid tid : String)
    (f : StatField) (v : Int) (hs : statePointsOk s) :
    statePointsOk (updateStat s pid tid f v) := by
  intro q st hq
  by_cases hqp : q = pid
  · subst hqp
    rw [updateStat_stats_self] at hq
    cases hq
    exact pointsOk_editResult s q tid f v (pointsOk_getPlayerStat s q tid hs)
  · by_cases hc : s.onCourt q = true
    · cases hsq : s.stats q with
      | none => rw [updateStat_stats_none s pid tid f v q hqp hsq] at hq; cases hq
      | some stq =>
        rw [updateStat_stats_onCourt s pid tid f v q hqp hc stq hsq] at hq
        cases hq
        exact pointsOk_adjustPlusMinus tid _ stq (hs q stq hsq)
    · have hc' : s.onCourt q = false := by simpa using hc
      rw [updateStat_stats_offCourt s pid tid f v q hqp hc'] at hq
      exact hs q st hq

theorem statePointsOk_quickScore (s : ScoringState) (pid tid : String)
    (ty : ScoreType) (hs : statePointsOk s) :
    statePointsOk (quickScore s pid tid ty) := by
  intro q st hq
  by_cases hqp : q = pid
  · subst hqp
    rw [quickScore_stats_shooter] at hq
    by_cases h : (0:Int) < ty.pointsScored
    · rw [if_pos h] at hq
      cases hq
      exact pointsOk_recomputePoints _
    · rw [if_neg h] at hq
      cases hq
      exact pointsOk_recomputePoints _
  · by_cases hc : s.onCourt q = true
    · cases hsq : s.stats q with
      | none =>
        have := quickScore_stats_none s pid tid ty q hqp hsq
        rw [this] at hq; cases hq
      | some stq =>
        rw [quickScore_stats_onCourt s pid tid ty q hqp hc stq hsq] at hq
        by_cases h : (0:Int) < ty.pointsScored
        · rw [if_pos h] at hq
          cases hq
          exact pointsOk_adjustPlusMinus tid _ stq (hs q stq hsq)
        · rw [if_neg h] at hq
          cases hq
          exact hs q _ hsq
    · have hc' : s.onCourt q = false := by simpa using hc
      rw [quickScore_stats_offCourt s pid tid ty q hqp hc'] at hq
      exact hs q st hq

/-- Any entry after togglePlayerOnCourt is either the old entry or the
freshly created zeroed record. -/
theorem toggle_stats (s : ScoringState) (pid tid q : String) :
    (togglePlayerOnCourt s pid tid).stats q = s.stats q ∨
    (togglePlayerOnCourt s pid tid).stats q =
      some { createEmptyPlayerStats s.gameId pid tid with hasId := true } := by
  unfold togglePlayerOnCourt
  by_cases h1 : s.onCourt pid
  · left; simp [h1]
  · by_cases h2 : 5 ≤ onCourtCountFor s tid
    · left; simp [h1, h2]
    · by_cases h3 : (s.stats pid).isSome
      · left; simp [h1, h2, h3]
      · by_cases h4 : q = pid
        · right; simp [h1, h2, h3, h4]
        · left; simp [h1, h2, h3, h4]

/-- Any entry after handleTimerTick is the old entry or the old entry
with one more second of court time. -/
theorem tick_stats (s : ScoringState) (q : String) :
    (handleTimerTick s).stats q = s.stats q ∨
    ∃ st, s.stats q = some st ∧
      (handleTimerTick s).stats q = some { st with minutes := st.minutes + 1 } := by
  unfold handleTimerTick
  by_cases hc : s.onCourt q
  · cases hsq : s.stats q with
    | none => left; simp [hc, hsq]
    | some st => right; exact ⟨st, rfl, by simp [hc, hsq]⟩
  · left; simp [hc]

theorem statePointsOk_toggle (s : ScoringState) (pid tid : String)
    (hs : statePointsOk s) : statePointsOk (togglePlayerOnCourt s pid tid) := by
  intro q st hq
  rcases toggle_stats s pid tid q with h | h
  · rw [h] at hq; exact hs q st hq
  · rw [h] at hq; cases hq; exact rfl

theorem statePointsOk_tick (s : ScoringState) (hs : statePointsOk s) :
    statePointsOk (handleTimerTick s) := by
  intro q st hq
  rcases tick_stats s q with h | ⟨st0, hst0, h⟩
  · rw [h] at hq; exact hs q st hq
  · rw [h] at hq; cases hq; exact hs q st0 hst0

theorem statePointsOk_applyOp (s : ScoringState) (op : SEOp) (hs : statePointsOk s) :
    statePointsOk (applyOp s op) := by
  cases op with
  | upd p t f v => exact statePointsOk_updateStat s p t f v hs
  | qadd p t f a => exact statePointsOk_updateStat s p t f _ hs
  | qscore p t ty => exact statePointsOk_quickScore s p t ty hs
  | toggle p t => exact statePointsOk_toggle s p t hs
  | tick => exact statePointsOk_tick s hs

theorem statePointsOk_applyOps (ops : List SEOp) :
    ∀ s : ScoringState, statePointsOk s → statePointsOk (applyOps s ops) := by
  induction ops with
  | nil => intro s hs; exact hs
  | cons op ops ih => intro s hs; exact ih (applyOp s op) (statePointsOk_applyOp s op hs)

/-- C2: for every record in the in-memory store, points equals
2*twoPointsMade + 3*threePointsMade + 1*freeThrowsMade after any
sequence of scoring-session operations, provided every record satisfied
it beforehand (fresh sessions start with zeroed records). -/
theorem claim_C2_points_invariant (s : ScoringState) (ops : List SEOp)
    (hs : statePointsOk s) : statePointsOk (applyOps s ops) :=
  statePointsOk_applyOps ops s hs

/-- C2 witness: from the empty session state, a mixed sequence of quick
scores, edits, quick increments, substitutions and ticks keeps the
derived-points invariant. -/
theorem claim_C2_witness :
    statePointsOk (applyOps exS0
      [SEOp.toggle ("h1") ("H"), SEOp.toggle ("a1") ("A"),
       SEOp.qscore ("h1") ("H") ScoreType.twoPtMade,
       SEOp.upd ("h1") ("H") StatField.threePointsMade 4,
       SEOp.qadd ("a1") ("A") StatField.assists 1, SEOp.tick]) :=
  claim_C2_points_invariant exS0
    [SEOp.toggle ("h1") ("H"), SEOp.toggle ("a1") ("A"),
     SEOp.qscore ("h1") ("H") ScoreType.twoPtMade,
     SEOp.upd ("h1") ("H") StatField.threePointsMade 4,
     SEOp.qadd ("a1") ("A") StatField.assists 1, SEOp.tick]
    (fun pid st hq => Option.noConfusion hq)

/-! Non-negativity preservation and clamping. -/

theorem getField_setMinutes (st : PlayerStats) (m : Int) (f : StatField) :
    getField { st with minutes := m } f =
      if f = StatField.minutes then m else getField st f := by
  cases f <;> simp [getField]

theorem nonNeg_getPlayerStat (s : ScoringState) (pid tid : String)
    (hs : stateNonNeg s) : nonNeg (getPlayerStat s pid tid) := by
  unfold getPlayerStat
  cases hst : s.stats pid with
  | none => exact ⟨le_refl 0, fun f => by cases f <;> exact le_refl 0⟩
  | some st => exact hs pid st hst

theorem nonNeg_adjustPlusMinus (tid : String) (d : Int) (st : PlayerStats)
    (h : nonNeg st) : nonNeg (adjustPlusMinus tid d st) := by
  unfold adjustPlusMinus
  split <;> exact ⟨h.1, fun f => by rw [getField_setPlusMinus]; exact h.2 f⟩

theorem nonNeg_editResult (s : ScoringState) (pid tid : String)
    (f : StatField) (v : Int) (h : nonNeg (getPlayerStat s pid tid)) :
    nonNeg (editResult s pid tid f v) := by
  have hg : ∀ f', 0 ≤ getField (editResult s pid tid f v) f' := by
    intro f'
    rw [getField_editResult]
    split
    · exact le_max_left 0 v
    · exact h.2 f'
  refine ⟨?_, hg⟩
  by_cases hfm : f.isMade = true
  · have hok := pointsOk_editResult_made s pid tid f v hfm
    unfold pointsOk at hok
    rw [hok]
    have h2 := hg StatField.twoPointsMade
    have h3 := hg StatField.threePointsMade
    have h4 := hg StatField.freeThrowsMade
    simp only [getField] at h2 h3 h4
    omega
  · have hfm' : f.isMade = false := by simpa using hfm
    rw [points_editResult_nonmade s pid tid f v hfm']
    exact h.1

theorem getField_applyScoreCounters_ge (st : PlayerStats) (ty : ScoreType)
    (h : ∀ f, 0 ≤ getField st f) : ∀ f, 0 ≤ getField (applyScoreCounters st ty) f := by
  intro f
  have hf := h f
  cases ty <;> cases f <;>
    simp only [applyScoreCounters, getField] at hf ⊢ <;> omega

theorem nonNeg_recompute_applyScore (st : PlayerStats) (ty : ScoreType)
    (h : ∀ f, 0 ≤ getField st f) : nonNeg (recomputePoints (applyScoreCounters st ty)) := by
  have hA := getField_applyScoreCounters_ge st ty h
  refine ⟨?_, fun f => by rw [getField_recomputePoints]; exact hA f⟩
  rw [points_recomputePoints]
  have h2 := hA StatField.twoPointsMade
  have h3 := hA StatField.threePointsMade
  have h4 := hA StatField.freeThrowsMade
  simp only [getField] at h2 h3 h4
  omega

theorem nonNeg_setPlusMinus (st : PlayerStats) (v : Int) (h : nonNeg st) :
    nonNeg { st with plusMinus := v } :=
  ⟨h.1, fun f => by rw [getField_setPlusMinus]; exact h.2 f⟩

theorem stateNonNeg_updateStat (s : ScoringState) (pid tid : String)
    (f : StatField) (v : Int) (hs : stateNonNeg s) :
    stateNonNeg (updateStat s pid tid f v) := by
  intro q st hq
  by_cases hqp : q = pid
  · subst hqp
    rw [updateStat_stats_self] at hq
    cases hq
    exact nonNeg_editResult s q tid f v (nonNeg_getPlayerStat s q tid hs)
  · by_cases hc : s.onCourt q = true
    · cases hsq : s.stats q with
      | none => rw [updateStat_stats_none s pid tid f v q hqp hsq] at hq; cases hq
      | some stq =>
        rw [updateStat_stats_onCourt s pid tid f v q hqp hc stq hsq] at hq
        cases hq
        exact nonNeg_adjustPlusMinus tid _ stq (hs q stq hsq)
    · have hc' : s.onCourt q = false := by simpa using hc
      rw [updateStat_stats_offCourt s pid tid f v q hqp hc'] at hq
      exact hs q st hq

theorem stateNonNeg_quickScore (s : ScoringState) (pid tid : String)
    (ty : ScoreType) (hs : stateNonNeg s) :
    stateNonNeg (quickScore s pid tid ty) := by
  intro q st hq
  by_cases hqp : q = pid
  · subst hqp
    rw [quickScore_stats_shooter] at hq
    by_cases h : (0:Int) < ty.pointsScored
    · rw [if_pos h] at hq
      cases hq
      exact nonNeg_setPlusMinus _ _ (nonNeg_recompute_applyScore _ ty
        (fun f => by rw [getField_setHasId]; exact (nonNeg_getPlayerStat s q tid hs).2 f))
    · rw [if_neg h] at hq
      cases hq
      exact nonNeg_recompute_applyScore _ ty
        (fun f => by rw [getField_setHasId]; exact (nonNeg_getPlayerStat s q tid hs).2 f)
  · by_cases hc : s.onCourt q = true
    · cases hsq : s.stats q with
      | none =>
        rw [quickScore_stats_none s pid tid ty q hqp hsq] at hq; cases hq
      | some stq =>
        rw [quickScore_stats_onCourt s pid tid ty q hqp hc stq hsq] at hq
        by_cases h : (0:Int) < ty.pointsScored
        · rw [if_pos h] at hq
          cases hq
          exact nonNeg_adjustPlusMinus tid _ stq (hs q stq hsq)
        · rw [if_neg h] at hq
          cases hq
          exact hs q _ hsq
    · have hc' : s.onCourt q = false := by simpa using hc
      rw [quickScore_stats_offCourt s pid tid ty q hqp hc'] at hq
      exact hs q st hq

theorem stateNonNeg_toggle (s : ScoringState) (pid tid : String)
    (hs : stateNonNeg s) : stateNonNeg (togglePlayerOnCourt s pid tid) := by
  intro q st hq
  rcases toggle_stats s pid tid q with h | h
  · rw [h] at hq; exact hs q st hq
  · rw [h] at hq
    cases hq
    exact ⟨le_refl 0, fun f => by cases f <;> exact le_refl 0⟩

theorem stateNonNeg_tick (s : ScoringState) (hs : stateNonNeg s) :
    stateNonNeg (handleTimerTick s) := by
  intro q st hq
  rcases tick_stats s q with h | ⟨st0, hst0, h⟩
  · rw [h] at hq; exact hs q st hq
  · rw [h] at hq
    cases hq
    have h0 := hs q st0 hst0
    refine ⟨h0.1, fun f => ?_⟩
    rw [getField_setMinutes]
    split
    · have hm := h0.2 StatField.minutes
      simp only [getField] at hm
      omega
    · exact h0.2 f

theorem stateNonNeg_applyOp (s : ScoringState) (op : SEOp) (hs : stateNonNeg s) :
    stateNonNeg (applyOp s op) := by
  cases op with
  | upd p t f v => exact stateNonNeg_updateStat s p t f v hs
  | qadd p t f a => exact stateNonNeg_updateStat s p t f _ hs
  | qscore p t ty => exact stateNonNeg_quickScore s p t ty hs
  | toggle p t => exact stateNonNeg_toggle s p t hs
  | tick => exact stateNonNeg_tick s hs

theorem stateNonNeg_applyOps (ops : List SEOp) :
    ∀ s : ScoringState, stateNonNeg s → stateNonNeg (applyOps s ops) := by
  induction ops with
  | nil => intro s hs; exact hs
  | cons op ops ih => intro s hs; exact ih (applyOp s op) (stateNonNeg_applyOp s op hs)

/-! Idempotence of a clamped write. -/

theorem hasId_setField (st : PlayerStats) (f : StatField) (v : Int) :
    (setField st f v).hasId = st.hasId := by cases f <;> rfl

theorem hasId_editResult (s : ScoringState) (pid tid : String)
    (f : StatField) (v : Int) : (editResult s pid tid f v).hasId = true := by
  unfold editResult
  by_cases hfm : f.isMade = true <;> simp [hfm, recomputePoints, hasId_setField]

theorem setField_getField_eta (st : PlayerStats) (f : StatField) :
    setField st f (getField st f) = st := by cases f <;> rfl

theorem recomputePoints_of_pointsOk (st : PlayerStats) (h : pointsOk st) :
    recomputePoints st = st := by
  unfold recomputePoints pointsOk at *
  rw [← h]

/-- Writing the same clamped value twice is the identity on the second
write: updateStat is idempotent. -/
theorem updateStat_idem (s : ScoringState) (pid tid : String) (f : StatField) (v : Int) :
    updateStat (updateStat s pid tid f v) pid tid f v = updateStat s pid tid f v := by
  have hcur : getPlayerStat (updateStat s pid tid f v) pid tid = editResult s pid tid f v := by
    unfold getPlayerStat
    rw [updateStat_stats_self]
  have hd2 : editDelta (updateStat s pid tid f v) pid tid f v = 0 := by
    unfold editDelta
    rw [hcur, editResult_getField]
    by_cases hfm : f.isMade = true <;> simp [hfm]
  have hid : ({ editResult s pid tid f v with hasId := true } : PlayerStats)
      = editResult s pid tid f v := by
    rw [← hasId_editResult s pid tid f v]
  have hrec : editResult (updateStat s pid tid f v) pid tid f v = editResult s pid tid f v := by
    conv_lhs => rw [editResult.eq_1]
    rw [hcur, hd2, hid, ← editResult_getField s pid tid f v, setField_getField_eta]
    by_cases hfm : f.isMade = true
    · rw [if_pos hfm,
        recomputePoints_of_pointsOk _ (pointsOk_editResult_made s pid tid f v hfm)]
      simp
    · rw [if_neg hfm]
      simp
  have hstats : (updateStat (updateStat s pid tid f v) pid tid f v).stats
      = (updateStat s pid tid f v).stats := by
    funext q
    by_cases hqp : q = pid
    · subst hqp
      rw [updateStat_stats_self, hrec, updateStat_stats_self]
    · by_cases hc : (updateStat s pid tid f v).onCourt q = true
      · cases hsq : (updateStat s pid tid f v).stats q with
        | none =>
          simp only [updateStat_stats_none (updateStat s pid tid f v) pid tid f v q hqp hsq,
            hsq]
        | some stq =>
          simp only [updateStat_stats_onCourt (updateStat s pid tid f v) pid tid f v q hqp hc
            stq hsq, hd2, adjustPlusMinus_zero, hsq]
      · have hc' : (updateStat s pid tid f v).onCourt q = false := by simpa using hc
        simp only [updateStat_stats_offCourt (updateStat s pid tid f v) pid tid f v q hqp hc']
  calc updateStat (updateStat s pid tid f v) pid tid f v
      = { updateStat s pid tid f v with
          stats := (updateStat (updateStat s pid tid f v) pid tid f v).stats } := rfl
    _ = { updateStat s pid tid f v with stats := (updateStat s pid tid f v).stats } := by
        rw [hstats]
    _ = updateStat s pid tid f v := rfl

/-- C5: no field other than plusMinus ever becomes negative across any
sequence of session operations; a negative write is clamped to 0, and
repeating the identical write changes nothing further. -/
theorem claim_C5_clamping (s : ScoringState) (ops : List SEOp) (pid tid : String)
    (f : StatField) (v : Int) (hs : stateNonNeg s) (hv : v < 0) :
    stateNonNeg (applyOps s ops) ∧
    (∃ st', (updateStat s pid tid f v).stats pid = some st' ∧ getField st' f = 0) ∧
    updateStat (updateStat s pid tid f v) pid tid f v = updateStat s pid tid f v := by
  refine ⟨stateNonNeg_applyOps ops s hs,
    ⟨_, updateStat_stats_self s pid tid f v, ?_⟩, updateStat_idem s pid tid f v⟩
  rw [editResult_getField]
  exact max_eq_left (le_of_lt hv)

/-- C5 witness: a negative write to steals on the fresh state clamps to
0 and a second identical write is a no-op; the non-negativity invariant
holds after a mixed operation sequence. -/
theorem claim_C5_witness :
    stateNonNeg (applyOps exS0
      [SEOp.toggle ("h1") ("H"), SEOp.qscore ("h1") ("H") ScoreType.twoPtMade,
       SEOp.upd ("h1") ("H") StatField.steals (-5), SEOp.tick]) ∧
    updateStat (updateStat exS0 ("h1") ("H") StatField.steals (-5)) ("h1") ("H")
        StatField.steals (-5)
      = updateStat exS0 ("h1") ("H") StatField.steals (-5) := by
  have h := claim_C5_clamping exS0
    [SEOp.toggle ("h1") ("H"), SEOp.qscore ("h1") ("H") ScoreType.twoPtMade,
     SEOp.upd ("h1") ("H") StatField.steals (-5), SEOp.tick]
    ("h1") ("H") StatField.steals (-5)
    (fun pid st hq => Option.noConfusion hq) (by decide)
  exact ⟨h.1, h.2.2⟩

end BasketballStats
